import Mathlib

/-!
# CodeBooster: the interactive set-up sequencer of `src/index.js`

A shallow embedding of `src/index.js`.  The script is sequential orchestration:
it checks a condition, asks the operator a question, starts an external
command, writes a file.  Every `async function` of the script is embedded as a
function from the module's two global variables to a `Result`: how the call
ends (the returned promise fulfils or rejects, or the process dies of an
exception no handler can catch), the globals afterwards and the ordered list of
`Event`s the call performed.  The answers of the
environment (file system, terminal, child processes) are the fields of a
`World`; each is keyed by the request, and the script issues every request at
most once in a run.
-/

namespace CodeBooster

/-! ## Values of the host language -/

/-- A JavaScript `Error`: only its `message` is read by the script. -/
structure Err where
  message : String
deriving DecidableEq, Repr

/-- The object `packageJson.devDependencies` (line 8): its own properties, tool
name to version string, one entry per key. -/
abbrev DevDependencies := List (String × String)

/-- The descriptor object returned by `require` (line 8); the property
`devDependencies` may be missing. -/
structure PackageJson where
  devDependencies : Option DevDependencies
deriving DecidableEq, Repr

/-- Line 9: `packageJson.devDependencies || {}`.  An object is truthy, a missing
property is `undefined`. -/
def devDependencies (packageJson : PackageJson) : DevDependencies :=
  match packageJson.devDependencies with
  | some deps => deps
  | none => []

/-- Property read `deps[key]`: `none` is `undefined`. -/
def getProp (deps : DevDependencies) (key : String) : Option String :=
  deps.lookup key

/-- JavaScript truthiness of a property read that is `undefined` or a string:
`Boolean(v)`, and the test of `if (v)` and `!v`.  `undefined` and the empty
string are falsy, every other string is truthy. -/
def toBoolean : Option String → Bool
  | none => false
  | some s => !(s == "")

/-- Template-literal interpolation of a global that is `undefined` or a string. -/
def interpolate : Option String → String
  | none => "undefined"
  | some s => s

/-! ## Events, environment, results -/

/-- What a call does, in the order it does it. -/
inductive Event where
  /-- The call `fs.promises.access(path)`. -/
  | access (path : String)
  /-- A list question of `inquirer.prompt`: name, message, choices. -/
  | promptList (name message : String) (choices : List String)
  /-- A confirm question of `inquirer.prompt`: name, message, default. -/
  | promptConfirm (name message : String) (dflt : Option Bool)
  /-- The call `spawn(command, args, ...)`, whose `close` event is awaited. -/
  | spawn (command : String) (args : List String)
  /-- The call `execPromise(command)`: awaited, a failing command rejects. -/
  | execPromise (command : String)
  /-- The call `exec(command)` without a callback: the command is started, its
  outcome is never observed. -/
  | exec (command : String)
  /-- The call `fs.writeFileSync(path, content, 'utf-8')`. -/
  | writeFileSync (path content : String)
  /-- The call `console.log(message)`. -/
  | log (message : String)
  /-- The call `console.error(message)` or `console.error(message, err)`. -/
  | error (message : String) (err : Option Err)
deriving DecidableEq, Repr

/-- The event is a question to the operator. -/
def Event.isPrompt : Event → Bool
  | .promptList _ _ _ => true
  | .promptConfirm _ _ _ => true
  | _ => false

/-- The event is a yes/no question to the operator. -/
def Event.isConfirm : Event → Bool
  | .promptConfirm _ _ _ => true
  | _ => false

/-- The event is a package-manager (list) question to the operator. -/
def Event.isListPrompt : Event → Bool
  | .promptList _ _ _ => true
  | _ => false

/-- The event starts an external command. -/
def Event.isCommand : Event → Bool
  | .spawn _ _ => true
  | .execPromise _ => true
  | .exec _ => true
  | _ => false

/-- The event writes a file from the script itself. -/
def Event.isWrite : Event → Bool
  | .writeFileSync _ _ => true
  | _ => false

/-- The event shows a message to the operator. -/
def Event.isMessage : Event → Bool
  | .log _ => true
  | .error _ _ => true
  | _ => false

/-- The event is a `console.error` call. -/
def Event.isErrorReport : Event → Bool
  | .error _ _ => true
  | _ => false

/-- The event is a prompt, an external command or a file write. -/
def Event.isEffect (e : Event) : Bool :=
  e.isPrompt || e.isCommand || e.isWrite

/-- The prompts, external commands and file writes of a trace, in order. -/
def effects (trace : List Event) : List Event :=
  trace.filter Event.isEffect

/-- What becomes of a spawned child process. -/
inductive SpawnOutcome where
  /-- The process ran and the `close` event carries the exit code (`none` is
  `null`, the process was ended by a signal). -/
  | close (code : Option Int)
  /-- The process could not be started (no such executable, for one): the
  child emits an `error` event. -/
  | error (err : Err)
deriving DecidableEq, Repr

/-- The shell `child_process.exec` hands a command to: `/bin/sh` on a POSIX
system, `cmd.exe` on Windows. -/
inductive Shell where
  | posix
  | cmd
deriving DecidableEq, Repr

/-- The environment of one run. -/
structure World where
  /-- Whether `fs.promises.access(path)` fulfils. -/
  access : String → Bool
  /-- The operator's choice at the list question of that name, or the error the
  prompt rejects with. -/
  promptList : String → Except Err String
  /-- The operator's answer at the confirm question of that name, or the error
  the prompt rejects with. -/
  promptConfirm : String → Except Err Bool
  /-- What becomes of the process spawned with that command and arguments. -/
  spawnOutcome : String → List String → SpawnOutcome
  /-- The shell that runs the commands of `exec` and `execPromise`. -/
  shell : Shell
  /-- The outcome of running a shell command to its end: `none` when it exits
  with status zero, otherwise the error `exec` reports. -/
  commandOutcome : String → Option Err
  /-- The outcome of `fs.writeFileSync(path, content)`: `none` when it returns,
  otherwise the error it throws. -/
  writeOutcome : String → String → Option Err

/-- The two module-level variables of lines 11 and 12; `none` is `undefined`. -/
structure Globals where
  packageManager : Option String
  packageInstallPrefix : Option String
deriving DecidableEq, Repr

/-- The globals when the module has just been loaded. -/
def Globals.initial : Globals := ⟨none, none⟩

/-- How a call ends. -/
inductive Settled (α : Type) where
  /-- The promise fulfils with a value. -/
  | ok (a : α)
  /-- The promise rejects with an error; a `try`/`catch` around the `await`
  catches it. -/
  | error (err : Err)
  /-- An exception is thrown outside the call chain (from an event-loop
  callback): no `try`/`catch` of the script sees it, the promise never settles
  and the process ends. -/
  | crash (err : Err)

/-- The end of a call: how it ended, the globals afterwards, the events
performed. -/
structure Result (α : Type) where
  value : Settled α
  globals : Globals
  trace : List Event

/-- An asynchronous computation of the script. -/
def Act (α : Type) : Type := Globals → Result α

/-- A computation that fulfils at once. -/
def Act.pure {α : Type} (a : α) : Act α :=
  fun g => ⟨.ok a, g, []⟩

/-- Sequencing (`await` then continue): a rejection skips the continuation, and
so does the end of the process. -/
def Act.bind {α β : Type} (m : Act α) (f : α → Act β) : Act β :=
  fun g =>
    let r := m g
    match r.value with
    | .ok a =>
      let r2 := f a r.globals
      ⟨r2.value, r2.globals, r.trace ++ r2.trace⟩
    | .error e => ⟨.error e, r.globals, r.trace⟩
    | .crash e => ⟨.crash e, r.globals, r.trace⟩

/-- The statement `throw err`. -/
def Act.throw {α : Type} (e : Err) : Act α :=
  fun g => ⟨.error e, g, []⟩

/-- The statement `try { m } catch (err) { h err }`: the handler runs on a
rejection, never on the end of the process. -/
def Act.tryCatch {α : Type} (m : Act α) (h : Err → Act α) : Act α :=
  fun g =>
    let r := m g
    match r.value with
    | .ok a => ⟨.ok a, r.globals, r.trace⟩
    | .error e =>
      let r2 := h e r.globals
      ⟨r2.value, r2.globals, r.trace ++ r2.trace⟩
    | .crash e => ⟨.crash e, r.globals, r.trace⟩

/-- An exception that no handler of the script can catch. -/
def Act.crash {α : Type} (e : Err) : Act α :=
  fun g => ⟨.crash e, g, []⟩

instance : Monad Act where
  pure := Act.pure
  bind := Act.bind

instance : MonadExcept Err Act where
  throw := Act.throw
  tryCatch := Act.tryCatch

/-- Perform one event. -/
def emit (e : Event) : Act Unit :=
  fun g => ⟨.ok (), g, [e]⟩

/-- Settle with an outcome of the environment. -/
def settle {α : Type} (x : Except Err α) : Act α :=
  fun g =>
    match x with
    | .ok a => ⟨.ok a, g, []⟩
    | .error e => ⟨.error e, g, []⟩

/-- Assignment to the global `packageManager`. -/
def setPackageManager (v : String) : Act Unit :=
  fun g => ⟨.ok (), { g with packageManager := some v }, []⟩

/-- Assignment to the global `packageInstallPrefix`. -/
def setPackageInstallPrefix (v : String) : Act Unit :=
  fun g => ⟨.ok (), { g with packageInstallPrefix := some v }, []⟩

/-- Read of the global `packageManager`. -/
def getPackageManager : Act (Option String) :=
  fun g => ⟨.ok g.packageManager, g, []⟩

/-- Read of the global `packageInstallPrefix`. -/
def getPackageInstallPrefix : Act (Option String) :=
  fun g => ⟨.ok g.packageInstallPrefix, g, []⟩

/-- The call `console.log(message)`. -/
def consoleLog (message : String) : Act Unit :=
  emit (.log message)

/-- The call `console.error(message)` or `console.error(message, err)`. -/
def consoleError (message : String) (err : Option Err) : Act Unit :=
  emit (.error message err)

/-- Awaiting `execPromise(command)` (line 6, `util.promisify(exec)`): fulfils
when the command exits with status zero, rejects otherwise. -/
def execPromise (w : World) (command : String) : Act Unit := do
  emit (.execPromise command)
  match w.commandOutcome command with
  | none => pure ()
  | some e => throw e

/-- Awaiting `exec(command)` (line 3, `child_process.exec` without a callback):
`exec` returns a `ChildProcess`, which is not a promise, so `await` continues
at once and the outcome of the command reaches nobody. -/
def exec (_w : World) (command : String) : Act Unit :=
  emit (.exec command)

/-- The call `fs.writeFileSync(path, content, 'utf-8')`. -/
def writeFileSync (w : World) (path content : String) : Act Unit := do
  emit (.writeFileSync path content)
  match w.writeOutcome path content with
  | none => pure ()
  | some e => throw e

/-- Awaiting a confirm question of `inquirer.prompt`. -/
def promptConfirm (w : World) (name message : String) (dflt : Option Bool) : Act Bool := do
  emit (.promptConfirm name message dflt)
  settle (w.promptConfirm name)

/-- Awaiting a list question of `inquirer.prompt`. -/
def promptList (w : World) (name message : String) (choices : List String) : Act String := do
  emit (.promptList name message choices)
  settle (w.promptList name)

/-! ## JSON texts -/

/-- The JSON values the script's constants are built from. -/
inductive Json where
  | str (s : String)
  | arr (items : List Json)
  | obj (members : List (String × Json))

/-- One hexadecimal digit, lower case. -/
def hexDigit (n : Nat) : Char :=
  if n < 10 then Char.ofNat (48 + n) else Char.ofNat (87 + n)

/-- The escape of one character inside a JSON string (QuoteJSONString). -/
def quoteChar (c : Char) : String :=
  if c = '"' then "\\\""
  else if c = '\\' then "\\\\"
  else if c = '\n' then "\\n"
  else if c = '\r' then "\\r"
  else if c = '\t' then "\\t"
  else if c = Char.ofNat 8 then "\\b"
  else if c = Char.ofNat 12 then "\\f"
  else if c.toNat < 32 then
    "\\u00" ++ String.mk [hexDigit (c.toNat / 16), hexDigit (c.toNat % 16)]
  else String.singleton c

/-- The JSON text of a string: quoted, with its characters escaped. -/
def quoteJSONString (s : String) : String :=
  "\"" ++ String.join (s.toList.map quoteChar) ++ "\""

mutual
/-- The serialisation of a value, `gap` being the indentation unit and `indent`
the current indentation (SerializeJSONProperty, SerializeJSONArray,
SerializeJSONObject). -/
def Json.serialize (gap indent : String) : Json → String
  | .str s => quoteJSONString s
  | .arr [] => "[]"
  | .arr (x :: xs) =>
    if gap = "" then "[" ++ Json.serializeItems gap (indent ++ gap) "," (x :: xs) ++ "]"
    else
      "[\n" ++ (indent ++ gap)
        ++ Json.serializeItems gap (indent ++ gap) (",\n" ++ (indent ++ gap)) (x :: xs)
        ++ "\n" ++ indent ++ "]"
  | .obj [] => "\x7b\x7d"
  | .obj (m :: ms) =>
    if gap = "" then
      "\x7b" ++ Json.serializeMembers gap (indent ++ gap) "," (m :: ms) ++ "\x7d"
    else
      "\x7b\n" ++ (indent ++ gap)
        ++ Json.serializeMembers gap (indent ++ gap) (",\n" ++ (indent ++ gap)) (m :: ms)
        ++ "\n" ++ indent ++ "\x7d"
/-- The items of an array, joined by the separator. -/
def Json.serializeItems (gap indent sep : String) : List Json → String
  | [] => ""
  | [x] => Json.serialize gap indent x
  | x :: y :: rest =>
    Json.serialize gap indent x ++ sep ++ Json.serializeItems gap indent sep (y :: rest)
/-- The members of an object, joined by the separator. -/
def Json.serializeMembers (gap indent sep : String) : List (String × Json) → String
  | [] => ""
  | [(k, v)] =>
    quoteJSONString k ++ ":" ++ (if gap = "" then "" else " ") ++ Json.serialize gap indent v
  | (k, v) :: m :: rest =>
    quoteJSONString k ++ ":" ++ (if gap = "" then "" else " ") ++ Json.serialize gap indent v
      ++ sep ++ Json.serializeMembers gap indent sep (m :: rest)
end

/-- The call `JSON.stringify(value, null, space)` with a numeric `space`: the gap
is that many blanks, ten at most. -/
def JSON.stringify (value : Json) (space : Nat) : String :=
  Json.serialize (String.mk (List.replicate (min space 10) ' ')) "" value

/-- Lines 14 to 20. -/
def DEFAULT_LINT_STAGED_CONFIG : Json :=
  .obj [("*.\x7bjs,jsx,ts,tsx,json,md,mdx,html,css,scss,sass,less\x7d",
    .arr [.str "prettier --write", .str "eslint --fix", .str "git add"])]

/-! ## The script -/

/-- The text of an exit code inside a template literal (`none` is `null`). -/
def showCode : Option Int → String
  | none => "null"
  | some c => toString c

/-- Lines 22 to 30. -/
def checkValidProject (w : World) : Act Unit := do
  emit (.access "./package.json")
  let packageJsonExists := w.access "./package.json"
  if !packageJsonExists then
    throw ⟨"package.json not found in current directory. This script should be run from the root of your project."⟩

/-- Lines 32 to 50. -/
def askUserPackageManager (w : World) : Act Unit := do
  let response ← promptList w "packageManager" "Which package manager do you want to use?"
    ["yarn", "npm", "pnpm"]
  setPackageManager response
  let packageManager ← getPackageManager
  if packageManager = some "yarn" then
    setPackageInstallPrefix "yarn add"
  else if packageManager = some "npm" ∨ packageManager = some "pnpm" then
    setPackageInstallPrefix (interpolate packageManager ++ " install")

/-- Lines 52 to 64.  The only listener attached to the child is the one for
`close`.  When the child cannot be started it emits `error`, for which there is
no listener: the event is thrown as an exception from the event loop, outside
the promise and outside every `try` of the script. -/
def executeESLintInitConfig (w : World) : Act Unit := do
  emit (.spawn "npm" ["init", "@eslint/config"])
  match w.spawnOutcome "npm" ["init", "@eslint/config"] with
  | .close code =>
    if code = some 0 then
      pure ()
    else
      throw ⟨"npm init @eslint/config exited with code " ++ showCode code⟩
  | .error err => Act.crash err

/-- Lines 66 to 82. -/
def installAndConfigEslint (deps : DevDependencies) (w : World) : Act Unit := do
  let eslintInstalled := toBoolean (getProp deps "eslint")
  if !eslintInstalled then
    let answer ← promptConfirm w "installEslint"
      "eslint is not installed in this project. Would you like to install and configure it now?"
      (some true)
    if answer then
      executeESLintInitConfig w
      consoleLog "npm init @eslint/config completed successfully!"
      consoleLog "eslint has been installed and configured in this project."

/-- Lines 84 to 113. -/
def installAndConfigHusky (deps : DevDependencies) (w : World) : Act Unit := do
  try
    let huskyInstalled := toBoolean (getProp deps "husky")
    if huskyInstalled then
      consoleLog "Husky already installed in project!"
      return
  catch _ =>
    pure ()
  let answer ← promptConfirm w "confirmInstall"
    "Husky is not yet installed in this project. Would you like to install and configure it?"
    none
  if answer then
    let packageInstallPrefix ← getPackageInstallPrefix
    execPromise w (interpolate packageInstallPrefix ++ " husky -D")
    let packageManager ← getPackageManager
    execPromise w ("npx husky-init && " ++ interpolate packageManager ++ " install")
    execPromise w "npx husky add .husky/pre-commit \"npm test\""
    consoleLog "Husky installed and configured successfully!"
  else
    consoleLog "Skipping husky installation and configuration."

/-- Lines 115 to 155. -/
def installAndConfigLintStaged (deps : DevDependencies) (w : World) : Act Unit := do
  let hasLintStaged := getProp deps "lint-staged"
  if !toBoolean hasLintStaged then
    let response ← promptConfirm w "installLintStaged"
      "Lint-staged is not installed in the project. Do you want to install and configure it?"
      (some true)
    if response then
      let lintStagedConfigFile := ".lintstagedrc.json"
      let packageInstallPrefix ← getPackageInstallPrefix
      let installCommand := interpolate packageInstallPrefix ++ " -D lint-staged"
      try
        execPromise w installCommand
        let configFileContent := JSON.stringify DEFAULT_LINT_STAGED_CONFIG 2
        writeFileSync w lintStagedConfigFile configFileContent
        execPromise w "npx husky add .husky/lint-staged \"npx lint-staged\""
        consoleLog ("Lint-staged installed and configured with default configuration in "
          ++ lintStagedConfigFile)
      catch error =>
        consoleError "Failed to install and configure lint-staged" (some error)
  else
    consoleLog "Lint-staged is already installed in the project."

/-- Lines 157 to 188. -/
def installAndConfigCommitLint (deps : DevDependencies) (w : World) : Act Unit := do
  try
    let commentLintInstalled := getProp deps "@commitlint/cli"
    if toBoolean commentLintInstalled then
      consoleLog "commitlint is already installed in this project."
      return
    let installCommitLint ← promptConfirm w "installCommitLint"
      "commitlint is not yet installed in this project. Would you like to install and configure it now?"
      (some true)
    if !installCommitLint then
      consoleLog "commitlint is not installed."
      return
    consoleLog "Installing commitlint..."
    let packageInstallPrefix ← getPackageInstallPrefix
    exec w (interpolate packageInstallPrefix
      ++ " @commitlint/cli @commitlint/config-conventional -D")
    consoleLog "Configuring commitlint..."
    exec w "echo '\x7b \"extends\": [\"@commitlint/config-conventional\"] \x7d' > .commitlintrc.json"
    consoleLog "commitlint is now installed and configured."
    execPromise w "npx husky add .husky/commit-msg \"npx --no -- commitlint --edit $\x7b1\x7d\""
  catch err =>
    consoleError "Error:" (some err)

/-- Lines 190 to 205. -/
def run (deps : DevDependencies) (w : World) : Act Unit := do
  try
    checkValidProject w
    askUserPackageManager w
    installAndConfigEslint deps w
    installAndConfigHusky deps w
    installAndConfigLintStaged deps w
    installAndConfigCommitLint deps w
  catch err =>
    consoleError err.message none

/-- Line 207 and the exit of the process: the module calls `run()` with the
globals as loaded and attaches no handler to the returned promise.  The script
never assigns `process.exitCode` and never calls `process.exit`, so the status
is 0 when the promise fulfils, 1 (unhandled rejection) when it rejects and 1
(uncaught exception) when an exception escapes every handler. -/
def exitStatus (deps : DevDependencies) (w : World) : Nat :=
  match (run deps w Globals.initial).value with
  | .ok _ => 0
  | .error _ => 1
  | .crash _ => 1

/-! ## The four tool steps, by name -/

/-- The four tool steps. -/
inductive Tool where
  | eslint
  | husky
  | lintStaged
  | commitLint
deriving DecidableEq, Repr

/-- The key of `devDependencies` a step reads. -/
def Tool.key : Tool → String
  | .eslint => "eslint"
  | .husky => "husky"
  | .lintStaged => "lint-staged"
  | .commitLint => "@commitlint/cli"

/-- The function of the script that is the step. -/
def Tool.step : Tool → DevDependencies → World → Act Unit
  | .eslint => installAndConfigEslint
  | .husky => installAndConfigHusky
  | .lintStaged => installAndConfigLintStaged
  | .commitLint => installAndConfigCommitLint

/-- The yes/no question a step asks. -/
def Tool.question : Tool → Event
  | .eslint => .promptConfirm "installEslint"
      "eslint is not installed in this project. Would you like to install and configure it now?"
      (some true)
  | .husky => .promptConfirm "confirmInstall"
      "Husky is not yet installed in this project. Would you like to install and configure it?"
      none
  | .lintStaged => .promptConfirm "installLintStaged"
      "Lint-staged is not installed in the project. Do you want to install and configure it?"
      (some true)
  | .commitLint => .promptConfirm "installCommitLint"
      "commitlint is not yet installed in this project. Would you like to install and configure it now?"
      (some true)

/-- The name of the yes/no question a step asks. -/
def Tool.questionName : Tool → String
  | .eslint => "installEslint"
  | .husky => "confirmInstall"
  | .lintStaged => "installLintStaged"
  | .commitLint => "installCommitLint"

/-- None of the four keys is a property of `devDependencies`. -/
def noneDeclared (deps : DevDependencies) : Prop :=
  ∀ t : Tool, getProp deps t.key = none

/-- The operator answers yes to each of the four yes/no questions. -/
def confirmsAll (w : World) : Prop :=
  ∀ t : Tool, w.promptConfirm t.questionName = .ok true

/-- Every external command exits with status zero and every file write
returns. -/
def allSucceed (w : World) : Prop :=
  (∀ command args, w.spawnOutcome command args = .close (some 0))
    ∧ (∀ command, w.commandOutcome command = none)
    ∧ (∀ path content, w.writeOutcome path content = none)

/-- Lines 192 to 197: the part of the body of `run` before the call of
`installAndConfigLintStaged`. -/
def runUpToHusky (deps : DevDependencies) (w : World) : Act Unit := do
  checkValidProject w
  askUserPackageManager w
  installAndConfigEslint deps w
  installAndConfigHusky deps w

/-! ## Sample environments -/

/-- The descriptor is there, the operator picks the given package manager and
says yes to every question, every command and every write succeeds. -/
def agreeableWorld (choice : String) : World where
  access := fun _ => true
  promptList := fun _ => .ok choice
  promptConfirm := fun _ => .ok true
  spawnOutcome := fun _ _ => .close (some 0)
  shell := .posix
  commandOutcome := fun _ => none
  writeOutcome := fun _ _ => none

/-- As `agreeableWorld "npm"`, but the one command given fails. -/
def failingCommandWorld (failing : String) : World where
  access := fun _ => true
  promptList := fun _ => .ok "npm"
  promptConfirm := fun _ => .ok true
  spawnOutcome := fun _ _ => .close (some 0)
  shell := .posix
  commandOutcome := fun command =>
    if command = failing then some ⟨"Command failed: " ++ failing⟩ else none
  writeOutcome := fun _ _ => none

/-- As `agreeableWorld "npm"`, but there is no `./package.json`. -/
def noDescriptorWorld : World where
  access := fun _ => false
  promptList := fun _ => .ok "npm"
  promptConfirm := fun _ => .ok true
  spawnOutcome := fun _ _ => .close (some 0)
  shell := .posix
  commandOutcome := fun _ => none
  writeOutcome := fun _ _ => none

/-- As `agreeableWorld "npm"`, but no process can be spawned: `npm` is not to
be found. -/
def spawnFailsWorld : World where
  access := fun _ => true
  promptList := fun _ => .ok "npm"
  promptConfirm := fun _ => .ok true
  spawnOutcome := fun _ _ => .error ⟨"spawn npm ENOENT"⟩
  shell := .posix
  commandOutcome := fun _ => none
  writeOutcome := fun _ _ => none

/-- As `agreeableWorld "npm"`, but the package-manager question rejects. -/
def abortedPromptWorld : World where
  access := fun _ => true
  promptList := fun _ => .error ⟨"User force closed the prompt"⟩
  promptConfirm := fun _ => .ok true
  spawnOutcome := fun _ _ => .close (some 0)
  shell := .posix
  commandOutcome := fun _ => none
  writeOutcome := fun _ _ => none

/-- As `agreeableWorld "npm"`, but the husky question rejects. -/
def abortedConfirmWorld : World where
  access := fun _ => true
  promptList := fun _ => .ok "npm"
  promptConfirm := fun name =>
    if name = "confirmInstall" then .error ⟨"User force closed the prompt"⟩ else .ok true
  spawnOutcome := fun _ _ => .close (some 0)
  shell := .posix
  commandOutcome := fun _ => none
  writeOutcome := fun _ _ => none

/-- As `agreeableWorld "npm"`, but on Windows: the shell is `cmd.exe`. -/
def windowsWorld : World where
  access := fun _ => true
  promptList := fun _ => .ok "npm"
  promptConfirm := fun _ => .ok true
  spawnOutcome := fun _ _ => .close (some 0)
  shell := .cmd
  commandOutcome := fun _ => none
  writeOutcome := fun _ _ => none

/-- As `agreeableWorld "npm"`, but the operator says no to every yes/no
question. -/
def decliningWorld : World where
  access := fun _ => true
  promptList := fun _ => .ok "npm"
  promptConfirm := fun _ => .ok false
  spawnOutcome := fun _ _ => .close (some 0)
  shell := .posix
  commandOutcome := fun _ => none
  writeOutcome := fun _ _ => none

/-! ## Reading back what the commitlint step has the shell write -/

/-- Drop leading JSON white space. -/
def skipWs : List Char → List Char
  | [] => []
  | c :: cs => if c = ' ' ∨ c = '\n' ∨ c = '\r' ∨ c = '\t' then skipWs cs else c :: cs

/-- Read the characters of a JSON string up to its closing quote; a text with an
escape sequence is not read. -/
def readString : List Char → List Char → Option (String × List Char)
  | [], _ => none
  | c :: cs, acc =>
    if c = '"' then some (String.mk acc.reverse, cs)
    else if c = '\\' then none
    else readString cs (c :: acc)

mutual
/-- Read one JSON value (a string, an array or an object) from the front of a
text; the first argument bounds the nesting and the number of items. -/
def readValue : Nat → List Char → Option (Json × List Char)
  | 0, _ => none
  | n + 1, cs =>
    match skipWs cs with
    | '"' :: rest =>
      match readString rest [] with
      | some (s, rest2) => some (.str s, rest2)
      | none => none
    | '[' :: rest =>
      match skipWs rest with
      | ']' :: rest2 => some (.arr [], rest2)
      | _ =>
        match readItems n rest with
        | some (items, rest2) => some (.arr items, rest2)
        | none => none
    | '\x7b' :: rest =>
      match skipWs rest with
      | '\x7d' :: rest2 => some (.obj [], rest2)
      | _ =>
        match readMembers n rest with
        | some (members, rest2) => some (.obj members, rest2)
        | none => none
    | _ => none
/-- Read the items of an array up to and including its closing bracket. -/
def readItems : Nat → List Char → Option (List Json × List Char)
  | 0, _ => none
  | n + 1, cs =>
    match readValue n cs with
    | none => none
    | some (v, rest) =>
      match skipWs rest with
      | ',' :: rest2 =>
        match readItems n rest2 with
        | some (items, rest3) => some (v :: items, rest3)
        | none => none
      | ']' :: rest2 => some ([v], rest2)
      | _ => none
/-- Read the members of an object up to and including its closing brace. -/
def readMembers : Nat → List Char → Option (List (String × Json) × List Char)
  | 0, _ => none
  | n + 1, cs =>
    match skipWs cs with
    | '"' :: rest =>
      match readString rest [] with
      | none => none
      | some (k, rest2) =>
        match skipWs rest2 with
        | ':' :: rest3 =>
          match readValue n rest3 with
          | none => none
          | some (v, rest4) =>
            match skipWs rest4 with
            | ',' :: rest5 =>
              match readMembers n rest5 with
              | some (members, rest6) => some ((k, v) :: members, rest6)
              | none => none
            | '\x7d' :: rest5 => some ([(k, v)], rest5)
            | _ => none
        | _ => none
    | _ => none
end

/-- The value a JSON text denotes, for texts made of strings without escapes,
arrays and objects; `none` for any other text. -/
def JSON.parse (text : String) : Option Json :=
  match readValue (text.length + 1) text.toList with
  | some (v, rest) => if skipWs rest = [] then some v else none
  | none => none

/-- Split a text at the first single quote: what is before it, what is
after it. -/
def splitAtQuote : List Char → List Char → Option (List Char × List Char)
  | [], _ => none
  | c :: cs, acc =>
    if c = Char.ofNat 39 then some (acc.reverse, cs) else splitAtQuote cs (c :: acc)

/-- Split a text at the first `>` that is not between double quotes: what is
before it, what is after it. -/
def splitAtRedirect : Bool → List Char → List Char → Option (List Char × List Char)
  | _, [], _ => none
  | quoted, c :: cs, acc =>
    if c = '"' then splitAtRedirect (!quoted) cs (c :: acc)
    else if c = '>' ∧ quoted = false then some (acc.reverse, cs)
    else splitAtRedirect quoted cs (c :: acc)

/-- The characters of a plain file name. -/
def isFileNameChar (c : Char) : Bool :=
  c.isAlphanum || c = '.' || c = '_' || c = '-'

/-- What the shell does with a command that echoes a text into a file; the
result is the file and the content it is left with, `none` for a command of
another form.  A POSIX shell, given `echo '<text>' > <file>`, removes the single
quotes and writes the text and a line feed.  `cmd.exe`, given
`echo <text> > <file>`, knows no single quotes: it writes everything between
`echo ` and the `>`, quotes and the blank before the `>` included, and a
carriage return and line feed. -/
def shellEchoRedirect (shell : Shell) (command : String) : Option (String × String) :=
  match shell, command.toList with
  | .posix, 'e' :: 'c' :: 'h' :: 'o' :: ' ' :: q :: rest =>
    if q = Char.ofNat 39 then
      match splitAtQuote rest [] with
      | some (text, ' ' :: '>' :: ' ' :: file) =>
        if file.all isFileNameChar then some (String.mk file, String.mk text ++ "\n")
        else none
      | _ => none
    else none
  | .cmd, 'e' :: 'c' :: 'h' :: 'o' :: ' ' :: rest =>
    match splitAtRedirect false rest [] with
    | some (text, ' ' :: file) =>
      if file.all isFileNameChar then some (String.mk file, String.mk text ++ "\r\n")
      else none
    | _ => none
  | _, _ => none

/-- The content of a file once a command has been run, given the content
before: a command that echoes into the file and succeeds leaves the echoed
content there; a command of another form, or a failing one, is taken to leave
the file alone. -/
def contentAfterCommand (w : World) (path : String) (before : Option String)
    (command : String) : Option String :=
  match shellEchoRedirect w.shell command with
  | some (file, content) =>
    if file = path ∧ w.commandOutcome command = none then some content else before
  | none => before

/-- The content of a file after one event, given the content before (`none`:
there is no such file). -/
def contentAfterEvent (w : World) (path : String) (before : Option String) :
    Event → Option String
  | .writeFileSync p content =>
    if p = path ∧ w.writeOutcome p content = none then some content else before
  | .exec command => contentAfterCommand w path before command
  | .execPromise command => contentAfterCommand w path before command
  | _ => before

/-- The content of a file once every command started in a trace has ended, given
the content before. -/
def contentAfter (w : World) (path : String) (before : Option String)
    (trace : List Event) : Option String :=
  trace.foldl (contentAfterEvent w path) before

/-! ## Helper lemmas -/

theorem toBoolean_some_of_ne {v : String} (h : v ≠ "") : toBoolean (some v) = true := by
  simp [toBoolean, h]

/-- The staged-file linter step never assigns to a global. -/
theorem lintStaged_globals (deps : DevDependencies) (w : World) (g : Globals) :
    (installAndConfigLintStaged deps w g).globals = g := by
  cases hb : toBoolean (getProp deps "lint-staged") <;>
  rcases hp : w.promptConfirm "installLintStaged" with e | (_ | _) <;>
  cases hi : w.commandOutcome (interpolate g.packageInstallPrefix ++ " -D lint-staged") <;>
  cases hw : w.writeOutcome ".lintstagedrc.json" (JSON.stringify DEFAULT_LINT_STAGED_CONFIG 2) <;>
  cases hh : w.commandOutcome "npx husky add .husky/lint-staged \"npx lint-staged\"" <;>
  simp [installAndConfigLintStaged, hb, hp, hi, hw, hh, promptConfirm, execPromise,
    writeFileSync, consoleLog, consoleError, getPackageInstallPrefix, settle, emit, bind, pure,
    throw, throwThe, MonadExcept.throw, tryCatch, tryCatchThe, MonadExcept.tryCatch, Act.bind,
    Act.pure, Act.throw, Act.tryCatch]

/-- The promise of the commit-message linter step never rejects. -/
theorem commitLint_fulfils (deps : DevDependencies) (w : World) (g : Globals) :
    (installAndConfigCommitLint deps w g).value = .ok () := by
  cases hb : toBoolean (getProp deps "@commitlint/cli") <;>
  rcases hp : w.promptConfirm "installCommitLint" with e | (_ | _) <;>
  cases hh : w.commandOutcome
    "npx husky add .husky/commit-msg \"npx --no -- commitlint --edit $\x7b1\x7d\"" <;>
  simp [installAndConfigCommitLint, hb, hp, hh, promptConfirm, execPromise, exec,
    consoleLog, consoleError, getPackageInstallPrefix, settle, emit, bind, pure,
    throw, throwThe, MonadExcept.throw, tryCatch, tryCatchThe, MonadExcept.tryCatch, Act.bind,
    Act.pure, Act.throw, Act.tryCatch]

/-- The validator performs the access check and nothing else, never ends the
process, and fulfils only when the descriptor is there. -/
theorem checkValidProject_facts (w : World) (g : Globals) :
    (∀ e, (checkValidProject w g).value ≠ .crash e)
      ∧ (checkValidProject w g).trace.filter Event.isConfirm = []
      ∧ ((checkValidProject w g).value = .ok () → w.access "./package.json" = true) := by
  cases h : w.access "./package.json" <;>
  simp [checkValidProject, h, Event.isConfirm, emit, bind, pure, throw, throwThe,
    MonadExcept.throw, Act.bind, Act.pure, Act.throw]

/-- The selector asks no yes/no question, never ends the process, and fulfils
only when the operator has made a choice. -/
theorem askUserPackageManager_facts (w : World) (g : Globals) :
    (∀ e, (askUserPackageManager w g).value ≠ .crash e)
      ∧ (askUserPackageManager w g).trace.filter Event.isConfirm = []
      ∧ ((askUserPackageManager w g).value = .ok () →
          ∃ c, w.promptList "packageManager" = .ok c) := by
  rcases h : w.promptList "packageManager" with e | c
  · simp [askUserPackageManager, h, promptList, settle, emit, Event.isConfirm, bind, pure,
      Act.bind, Act.pure]
  · by_cases h1 : c = "yarn" <;> by_cases h2 : c = "npm" <;> by_cases h3 : c = "pnpm" <;>
    simp [askUserPackageManager, h, h1, h2, h3, promptList, settle, emit, Event.isConfirm,
      setPackageManager, setPackageInstallPrefix, getPackageManager, bind, pure, Act.bind,
      Act.pure]

/-- The linter step ends the process only when the operator has said yes and the
initializer cannot be started; its question is then the only one it asked. -/
theorem installAndConfigEslint_crash (deps : DevDependencies) (w : World) (g : Globals)
    (e : Err) (h : (installAndConfigEslint deps w g).value = .crash e) :
    w.promptConfirm "installEslint" = .ok true
      ∧ w.spawnOutcome "npm" ["init", "@eslint/config"] = .error e
      ∧ (installAndConfigEslint deps w g).trace.filter Event.isConfirm
        = [Tool.eslint.question] := by
  revert h
  rcases hs : w.spawnOutcome "npm" ["init", "@eslint/config"] with code | e2
  · by_cases hc : code = some 0 <;>
    cases hb : toBoolean (getProp deps "eslint") <;>
    rcases hp : w.promptConfirm "installEslint" with e1 | (_ | _) <;>
    simp [installAndConfigEslint, executeESLintInitConfig, hb, hp, hs, hc, promptConfirm,
      consoleLog, settle, emit, bind, pure, throw, throwThe, MonadExcept.throw, Act.bind,
      Act.pure, Act.throw]
  · cases hb : toBoolean (getProp deps "eslint") <;>
    rcases hp : w.promptConfirm "installEslint" with e1 | (_ | _) <;>
    simp [installAndConfigEslint, executeESLintInitConfig, Tool.question, hb, hp, hs,
      promptConfirm, consoleLog, settle, emit, Event.isConfirm, bind, pure, Act.bind,
      Act.pure, Act.crash]

/-- The hook manager step never ends the process. -/
theorem installAndConfigHusky_no_crash (deps : DevDependencies) (w : World) (g : Globals)
    (e : Err) : (installAndConfigHusky deps w g).value ≠ .crash e := by
  cases hb : toBoolean (getProp deps "husky") <;>
  rcases hp : w.promptConfirm "confirmInstall" with e1 | (_ | _) <;>
  cases h1 : w.commandOutcome (interpolate g.packageInstallPrefix ++ " husky -D") <;>
  cases h2 : w.commandOutcome ("npx husky-init && " ++ interpolate g.packageManager
    ++ " install") <;>
  cases h3 : w.commandOutcome "npx husky add .husky/pre-commit \"npm test\"" <;>
  simp [installAndConfigHusky, hb, hp, h1, h2, h3, promptConfirm, execPromise, consoleLog,
    getPackageInstallPrefix, getPackageManager, settle, emit, bind, pure, throw, throwThe,
    MonadExcept.throw, tryCatch, tryCatchThe, MonadExcept.tryCatch, Act.bind, Act.pure,
    Act.throw, Act.tryCatch]

/-- The staged-file linter step never ends the process. -/
theorem installAndConfigLintStaged_no_crash (deps : DevDependencies) (w : World)
    (g : Globals) (e : Err) : (installAndConfigLintStaged deps w g).value ≠ .crash e := by
  cases hb : toBoolean (getProp deps "lint-staged") <;>
  rcases hp : w.promptConfirm "installLintStaged" with e | (_ | _) <;>
  cases hi : w.commandOutcome (interpolate g.packageInstallPrefix ++ " -D lint-staged") <;>
  cases hw : w.writeOutcome ".lintstagedrc.json" (JSON.stringify DEFAULT_LINT_STAGED_CONFIG 2) <;>
  cases hh : w.commandOutcome "npx husky add .husky/lint-staged \"npx lint-staged\"" <;>
  simp [installAndConfigLintStaged, hb, hp, hi, hw, hh, promptConfirm, execPromise,
    writeFileSync, consoleLog, consoleError, getPackageInstallPrefix, settle, emit, bind, pure,
    throw, throwThe, MonadExcept.throw, tryCatch, tryCatchThe, MonadExcept.tryCatch, Act.bind,
    Act.pure, Act.throw, Act.tryCatch]

/-- When the first four calls of `run` fulfil and the staged-file linter step
fulfils, `run` fulfils and its trace is theirs followed by that of the
commit-message linter step. -/
theorem run_of_reach (deps : DevDependencies) (w : World) (g : Globals)
    (hreach : (runUpToHusky deps w g).value = .ok ())
    (hls : (installAndConfigLintStaged deps w (runUpToHusky deps w g).globals).value = .ok ()) :
    (run deps w g).value = .ok ()
      ∧ (run deps w g).trace
        = (runUpToHusky deps w g).trace
          ++ (installAndConfigLintStaged deps w (runUpToHusky deps w g).globals).trace
          ++ (installAndConfigCommitLint deps w (runUpToHusky deps w g).globals).trace := by
  have hg := lintStaged_globals deps w (runUpToHusky deps w g).globals
  have hcl := commitLint_fulfils deps w (runUpToHusky deps w g).globals
  revert hreach hls hg hcl
  simp only [run, runUpToHusky, bind, Act.bind, tryCatch, tryCatchThe, MonadExcept.tryCatch,
    Act.tryCatch]
  generalize checkValidProject w g = r1
  rcases r1 with ⟨_ | _ | _, g1, t1⟩ <;> try (simp; done)
  simp only []
  generalize askUserPackageManager w g1 = r2
  rcases r2 with ⟨_ | _ | _, g2, t2⟩ <;> try (simp; done)
  simp only []
  generalize installAndConfigEslint deps w g2 = r3
  rcases r3 with ⟨_ | _ | _, g3, t3⟩ <;> try (simp; done)
  simp only []
  generalize installAndConfigHusky deps w g3 = r4
  rcases r4 with ⟨_ | _ | _, g4, t4⟩ <;> try (simp; done)
  simp only []
  generalize installAndConfigLintStaged deps w g4 = r5
  rcases r5 with ⟨_ | _ | _, g5, t5⟩ <;> try (simp; done)
  simp only []
  intro _ _ hg hcl
  subst hg
  generalize installAndConfigCommitLint deps w g5 = r6 at *
  rcases r6 with ⟨_ | _ | _, g6, t6⟩ <;> simp at hcl ⊢

/-- The promise returned by `run` never rejects: every error that reaches the
top-level handler is printed there. -/
theorem run_never_rejects (deps : DevDependencies) (w : World) (g : Globals) (e : Err) :
    (run deps w g).value ≠ .error e := by
  simp only [run, tryCatch, tryCatchThe, MonadExcept.tryCatch, Act.tryCatch]
  split <;> simp_all [consoleError, emit]

/-- The one way for `run` to end the process: the descriptor is there, the
operator has chosen a package manager and said yes to the linter question, and
the initializer cannot be started.  The linter question is then the only yes/no
question that was asked. -/
theorem run_crash (deps : DevDependencies) (w : World) (g : Globals) (e : Err)
    (h : (run deps w g).value = .crash e) :
    w.access "./package.json" = true
      ∧ (∃ c, w.promptList "packageManager" = .ok c)
      ∧ w.promptConfirm "installEslint" = .ok true
      ∧ w.spawnOutcome "npm" ["init", "@eslint/config"] = .error e
      ∧ (run deps w g).trace.filter Event.isConfirm = [Tool.eslint.question] := by
  have f1 := checkValidProject_facts w g
  revert h f1
  simp only [run, bind, Act.bind, tryCatch, tryCatchThe, MonadExcept.tryCatch, Act.tryCatch]
  generalize checkValidProject w g = r1
  rcases r1 with ⟨_ | e1 | e1, g1, t1⟩
  case mk.error => simp [consoleError, emit]
  case mk.crash => intro _ f1; exact absurd rfl (f1.1 e1)
  have f2 := askUserPackageManager_facts w g1
  revert f2
  simp only []
  generalize askUserPackageManager w g1 = r2
  rcases r2 with ⟨_ | e2 | e2, g2, t2⟩
  case mk.error => simp [consoleError, emit]
  case mk.crash => intro f2; exact absurd rfl (f2.1 e2)
  have f3 := installAndConfigEslint_crash deps w g2
  revert f3
  simp only []
  generalize installAndConfigEslint deps w g2 = r3
  rcases r3 with ⟨_ | e3 | e3, g3, t3⟩
  case mk.error => simp [consoleError, emit]
  case mk.crash =>
    intro f3 f2 h f1
    simp only [Settled.crash.injEq] at h
    subst h
    have k := f3 e3 rfl
    simp only [List.filter_append, List.append_nil] at *
    exact ⟨f1.2.2 trivial, f2.2.2 trivial, k.1, k.2.1, by rw [f1.2.1, f2.2.1, k.2.2]; rfl⟩
  have f4 := installAndConfigHusky_no_crash deps w g3
  revert f4
  simp only []
  generalize installAndConfigHusky deps w g3 = r4
  rcases r4 with ⟨_ | e4 | e4, g4, t4⟩
  case mk.error => simp [consoleError, emit]
  case mk.crash => intro f4; exact absurd rfl (f4 e4)
  have f5 := installAndConfigLintStaged_no_crash deps w g4
  revert f5
  simp only []
  generalize installAndConfigLintStaged deps w g4 = r5
  rcases r5 with ⟨_ | e5 | e5, g5, t5⟩
  case mk.error => simp [consoleError, emit]
  case mk.crash => intro f5; exact absurd rfl (f5 e5)
  have f6 := commitLint_fulfils deps w g5
  revert f6
  simp only []
  generalize installAndConfigCommitLint deps w g5 = r6
  rcases r6 with ⟨_ | e6 | e6, g6, t6⟩ <;> simp

/-- The exit status is zero unless `run` ends the process. -/
theorem exitStatus_zero_or_crash (deps : DevDependencies) (w : World) :
    exitStatus deps w = 0 ∨ ∃ e, (run deps w Globals.initial).value = .crash e := by
  unfold exitStatus
  rcases h : (run deps w Globals.initial).value with a | e | e
  · exact Or.inl rfl
  · exact absurd h (run_never_rejects deps w Globals.initial e)
  · exact Or.inr ⟨e, rfl⟩

/-! ## The declared check -/

/-- C1, as stated, fails: with `devDependencies = { eslint: "" }` the key is
present, yet `installAndConfigEslint` asks its question and, on yes, spawns the
initializer. -/
theorem declared_key_with_empty_version_still_prompts :
    ¬ (∀ (t : Tool) (deps : DevDependencies) (w : World) (g : Globals),
        (getProp deps t.key).isSome = true → effects (t.step deps w g).trace = []) := by
  intro h
  have h1 := h .eslint [("eslint", "")] (agreeableWorld "npm") Globals.initial (by decide)
  revert h1
  decide

/-- C1, amended: for each of the four tool steps and every `devDependencies` in
which the step's key maps to a non-empty version string, the step issues no
prompt, invokes no external command and writes no file; it fulfils and leaves
the globals as they were. -/
theorem declared_nonempty_version_is_noop (t : Tool) (deps : DevDependencies) (w : World)
    (g : Globals) (v : String) (hv : getProp deps t.key = some v) (hne : v ≠ "") :
    effects (t.step deps w g).trace = [] ∧ (t.step deps w g).value = .ok ()
      ∧ (t.step deps w g).globals = g := by
  have hb := toBoolean_some_of_ne hne
  cases t <;>
  simp [Tool.key] at hv <;>
  simp [Tool.step, installAndConfigEslint, installAndConfigHusky, installAndConfigLintStaged,
    installAndConfigCommitLint, hv, hb, effects, Event.isEffect, Event.isPrompt,
    Event.isCommand, Event.isWrite, consoleLog, emit, bind, pure, tryCatch, tryCatchThe,
    MonadExcept.tryCatch, Act.bind, Act.pure, Act.tryCatch]

/-- Witness of `declared_nonempty_version_is_noop`: the husky step in a project
that declares `husky` at `^8.0.3`. -/
theorem declared_nonempty_version_is_noop_witness :
    effects (Tool.husky.step [("husky", "^8.0.3")] (agreeableWorld "npm") Globals.initial).trace = []
      ∧ (Tool.husky.step [("husky", "^8.0.3")] (agreeableWorld "npm") Globals.initial).value
          = .ok ()
      ∧ (Tool.husky.step [("husky", "^8.0.3")] (agreeableWorld "npm") Globals.initial).globals
          = Globals.initial :=
  declared_nonempty_version_is_noop .husky [("husky", "^8.0.3")] (agreeableWorld "npm")
    Globals.initial "^8.0.3" (by decide) (by decide)

/-! ## Declining -/

/-- C2: for each of the four tool steps, when the step's key is not declared and
the operator answers no, the only prompt, command or write of the step is its
single yes/no question: no external command is invoked and no file is written,
and the step fulfils. -/
theorem decline_is_single_prompt (t : Tool) (deps : DevDependencies) (w : World) (g : Globals)
    (hv : getProp deps t.key = none) (hno : w.promptConfirm t.questionName = .ok false) :
    effects (t.step deps w g).trace = [t.question]
      ∧ (t.step deps w g).trace.filter Event.isCommand = []
      ∧ (t.step deps w g).trace.filter Event.isWrite = []
      ∧ (t.step deps w g).value = .ok () := by
  cases t <;>
  simp [Tool.key] at hv <;>
  simp [Tool.questionName] at hno <;>
  simp [Tool.step, Tool.question, installAndConfigEslint, installAndConfigHusky,
    installAndConfigLintStaged, installAndConfigCommitLint, hv, hno, toBoolean, effects,
    Event.isEffect, Event.isPrompt, Event.isCommand, Event.isWrite, consoleLog, promptConfirm,
    settle, emit, bind, pure, tryCatch, tryCatchThe, MonadExcept.tryCatch, Act.bind, Act.pure,
    Act.tryCatch]

/-- Witness of `decline_is_single_prompt`: the commitlint step in a project with
no development dependency. -/
theorem decline_is_single_prompt_witness :
    effects (Tool.commitLint.step [] decliningWorld Globals.initial).trace
        = [Tool.commitLint.question]
      ∧ (Tool.commitLint.step [] decliningWorld Globals.initial).trace.filter Event.isCommand = []
      ∧ (Tool.commitLint.step [] decliningWorld Globals.initial).trace.filter Event.isWrite = []
      ∧ (Tool.commitLint.step [] decliningWorld Globals.initial).value = .ok () :=
  decline_is_single_prompt .commitLint [] decliningWorld Globals.initial rfl rfl

/-! ## The package manager -/

/-- C4: when the operator picks one of the three offered choices,
`askUserPackageManager` stores the choice and a defined install prefix: `yarn add`
for yarn, `npm install` for npm, `pnpm install` for pnpm; the prefix differs from
`<choice> install` exactly when the choice is yarn, the first one. -/
theorem install_prefix_of_choice (w : World) (g : Globals) (choice : String)
    (hc : choice ∈ ["yarn", "npm", "pnpm"])
    (hw : w.promptList "packageManager" = .ok choice) :
    (askUserPackageManager w g).value = .ok ()
      ∧ (askUserPackageManager w g).globals.packageManager = some choice
      ∧ (askUserPackageManager w g).globals.packageInstallPrefix.isSome = true
      ∧ (choice = "yarn" →
          (askUserPackageManager w g).globals.packageInstallPrefix = some "yarn add")
      ∧ (choice = "npm" →
          (askUserPackageManager w g).globals.packageInstallPrefix = some "npm install")
      ∧ (choice = "pnpm" →
          (askUserPackageManager w g).globals.packageInstallPrefix = some "pnpm install")
      ∧ ((askUserPackageManager w g).globals.packageInstallPrefix ≠ some (choice ++ " install")
          ↔ choice = "yarn") := by
  simp at hc
  rcases hc with rfl | rfl | rfl <;>
  simp [askUserPackageManager, hw, promptList, settle, emit, setPackageManager,
    setPackageInstallPrefix, getPackageManager, interpolate, bind, pure, Act.bind, Act.pure]

/-- Witness of `install_prefix_of_choice`: the operator picks pnpm. -/
theorem install_prefix_of_choice_witness :
    (askUserPackageManager (agreeableWorld "pnpm") Globals.initial).globals.packageInstallPrefix
      = some "pnpm install" :=
  (install_prefix_of_choice (agreeableWorld "pnpm") Globals.initial "pnpm" (by decide)
    rfl).2.2.2.2.2.1 rfl

/-! ## The validator and the outcome of the run -/

/-- C5: when `./package.json` is absent, `checkValidProject` rejects, and `run`
does nothing after it but print the message of the error: no prompt (not even
the package-manager question), no external command, no file write. -/
theorem missing_descriptor_stops_run (deps : DevDependencies) (w : World) (g : Globals)
    (h : w.access "./package.json" = false) :
    (checkValidProject w g).value
        = .error ⟨"package.json not found in current directory. This script should be run from the root of your project."⟩
      ∧ (run deps w g).trace
        = [.access "./package.json",
           .error "package.json not found in current directory. This script should be run from the root of your project." none]
      ∧ effects (run deps w g).trace = []
      ∧ (run deps w g).globals = g := by
  simp [run, checkValidProject, h, effects, Event.isEffect, Event.isPrompt, Event.isCommand,
    Event.isWrite, consoleError, emit, bind, pure, throw, throwThe, MonadExcept.throw,
    tryCatch, tryCatchThe, MonadExcept.tryCatch, Act.bind, Act.pure, Act.throw, Act.tryCatch]

/-- Witness of `missing_descriptor_stops_run`: an empty directory. -/
theorem missing_descriptor_stops_run_witness :
    effects (run [] noDescriptorWorld Globals.initial).trace = [] :=
  (missing_descriptor_stops_run [] noDescriptorWorld Globals.initial rfl).2.2.1

/-- C6, as stated, fails: when the descriptor is missing the validator fails, and
when the package-manager question rejects the selector fails, and the exit
status is zero all the same. -/
theorem fatal_failure_exits_zero :
    ¬ (∀ (deps : DevDependencies) (w : World),
        w.access "./package.json" = false → exitStatus deps w ≠ 0)
      ∧ ¬ (∀ (deps : DevDependencies) (w : World) (e : Err),
        w.promptList "packageManager" = .error e → exitStatus deps w ≠ 0) := by
  constructor
  · intro h
    exact h [] noDescriptorWorld rfl (by decide)
  · intro h
    exact h [] abortedPromptWorld ⟨"User force closed the prompt"⟩ rfl (by decide)

/-- C6, amended: the exit status is zero when the validator fails because the
descriptor is missing, and zero when a prompt that was shown is aborted so that
its promise rejects (the package-manager question or the yes/no question of a
step): `run` catches the error, prints its message and fulfils.  It is zero
whenever the sequence runs to completion (the first four calls and the
staged-file linter step fulfil; the commit-message linter step always does),
steps skipped and failures reported inside a step included. -/
theorem exit_status_zero_when_caught_or_complete (deps : DevDependencies) (w : World) :
    (w.access "./package.json" = false → exitStatus deps w = 0)
      ∧ (∀ e, w.promptList "packageManager" = .error e → exitStatus deps w = 0)
      ∧ (∀ (t : Tool) (e : Err), w.promptConfirm t.questionName = .error e →
          t.question ∈ (run deps w Globals.initial).trace → exitStatus deps w = 0)
      ∧ ((runUpToHusky deps w Globals.initial).value = .ok () →
          (installAndConfigLintStaged deps w
            (runUpToHusky deps w Globals.initial).globals).value = .ok () →
          exitStatus deps w = 0) := by
  refine ⟨?_, ?_, ?_, ?_⟩
  · intro h
    rcases exitStatus_zero_or_crash deps w with h0 | ⟨e, hc⟩
    · exact h0
    · have k := (run_crash deps w Globals.initial e hc).1
      rw [h] at k
      exact absurd k (by decide)
  · intro e h
    rcases exitStatus_zero_or_crash deps w with h0 | ⟨e2, hc⟩
    · exact h0
    · obtain ⟨c, hc2⟩ := (run_crash deps w Globals.initial e2 hc).2.1
      rw [h] at hc2
      cases hc2
  · intro t e h hmem
    rcases exitStatus_zero_or_crash deps w with h0 | ⟨e2, hc⟩
    · exact h0
    · have k := run_crash deps w Globals.initial e2 hc
      have hq : t.question ∈ (run deps w Globals.initial).trace.filter Event.isConfirm :=
        List.mem_filter.mpr ⟨hmem, by cases t <;> rfl⟩
      rw [k.2.2.2.2] at hq
      have ht : t = .eslint := by
        cases t <;> simp [Tool.question] at hq ⊢
      subst ht
      have k3 := k.2.2.1
      simp only [Tool.questionName] at h
      rw [h] at k3
      cases k3
  · intro hreach hls
    have k := (run_of_reach deps w Globals.initial hreach hls).1
    simp [exitStatus, k]

/-- Witness of `exit_status_zero_when_caught_or_complete`: an empty directory; an
aborted package-manager question; an aborted husky question; a run in which
everything succeeds. -/
theorem exit_status_zero_when_caught_or_complete_witness :
    exitStatus [] noDescriptorWorld = 0
      ∧ exitStatus [] abortedPromptWorld = 0
      ∧ exitStatus [] abortedConfirmWorld = 0
      ∧ exitStatus [] (agreeableWorld "npm") = 0 :=
  ⟨(exit_status_zero_when_caught_or_complete [] noDescriptorWorld).1 rfl,
    (exit_status_zero_when_caught_or_complete [] abortedPromptWorld).2.1
      ⟨"User force closed the prompt"⟩ rfl,
    (exit_status_zero_when_caught_or_complete [] abortedConfirmWorld).2.2.1 .husky
      ⟨"User force closed the prompt"⟩ rfl (by decide),
    (exit_status_zero_when_caught_or_complete [] (agreeableWorld "npm")).2.2.2 rfl rfl⟩

/-- The exit status is not zero when the linter initializer cannot be started:
the unhandled `error` event of the child ends the process. -/
theorem spawn_failure_exits_one : exitStatus [] spawnFailsWorld = 1 := by
  decide

/-! ## The full sequence -/

/-- C7: for each of the three package-manager choices, when none of the four
tools is declared, the operator confirms every question and every external
command succeeds, the prompts, commands and writes of `run` are exactly: the
package-manager question; the eslint question and the linter initializer; the
husky question, the husky install, husky-init and the pre-commit hook; the
lint-staged question, the lint-staged install, the write of
`.lintstagedrc.json` and its hook; the commitlint question, the commitlint
install, the write of `.commitlintrc.json` and the commit-msg hook, in this
order.  So there is one package-manager prompt and there are four confirm
prompts. -/
theorem full_sequence_in_order (deps : DevDependencies) (w : World) (g : Globals)
    (choice : String) (hc : choice ∈ ["yarn", "npm", "pnpm"])
    (hdeps : noneDeclared deps) (hacc : w.access "./package.json" = true)
    (hpm : w.promptList "packageManager" = .ok choice)
    (hyes : confirmsAll w) (hok : allSucceed w) :
    effects (run deps w g).trace
        = [.promptList "packageManager" "Which package manager do you want to use?"
             ["yarn", "npm", "pnpm"],
           Tool.eslint.question,
           .spawn "npm" ["init", "@eslint/config"],
           Tool.husky.question,
           .execPromise ((if choice = "yarn" then "yarn add" else choice ++ " install")
             ++ " husky -D"),
           .execPromise ("npx husky-init && " ++ choice ++ " install"),
           .execPromise "npx husky add .husky/pre-commit \"npm test\"",
           Tool.lintStaged.question,
           .execPromise ((if choice = "yarn" then "yarn add" else choice ++ " install")
             ++ " -D lint-staged"),
           .writeFileSync ".lintstagedrc.json" (JSON.stringify DEFAULT_LINT_STAGED_CONFIG 2),
           .execPromise "npx husky add .husky/lint-staged \"npx lint-staged\"",
           Tool.commitLint.question,
           .exec ((if choice = "yarn" then "yarn add" else choice ++ " install")
             ++ " @commitlint/cli @commitlint/config-conventional -D"),
           .exec "echo '\x7b \"extends\": [\"@commitlint/config-conventional\"] \x7d' > .commitlintrc.json",
           .execPromise "npx husky add .husky/commit-msg \"npx --no -- commitlint --edit $\x7b1\x7d\""]
      ∧ ((run deps w g).trace.filter Event.isListPrompt).length = 1
      ∧ ((run deps w g).trace.filter Event.isConfirm).length = 4 := by
  have h1 := hdeps .eslint
  have h2 := hdeps .husky
  have h3 := hdeps .lintStaged
  have h4 := hdeps .commitLint
  have y1 := hyes .eslint
  have y2 := hyes .husky
  have y3 := hyes .lintStaged
  have y4 := hyes .commitLint
  obtain ⟨s1, s2, s3⟩ := hok
  simp only [Tool.key] at h1 h2 h3 h4
  simp only [Tool.questionName] at y1 y2 y3 y4
  simp at hc
  rcases hc with rfl | rfl | rfl <;>
  simp [run, checkValidProject, askUserPackageManager, installAndConfigEslint,
    executeESLintInitConfig, installAndConfigHusky, installAndConfigLintStaged,
    installAndConfigCommitLint, Tool.question, h1, h2, h3, h4, y1, y2, y3, y4, s1, s2, s3,
    hacc, hpm, toBoolean, interpolate, effects, Event.isEffect, Event.isPrompt,
    Event.isCommand, Event.isWrite, Event.isListPrompt, Event.isConfirm, consoleLog,
    consoleError, promptConfirm, promptList, execPromise, exec, writeFileSync, settle, emit,
    setPackageManager, setPackageInstallPrefix, getPackageManager, getPackageInstallPrefix,
    bind, pure, throw, throwThe, MonadExcept.throw, tryCatch, tryCatchThe,
    MonadExcept.tryCatch, Act.bind, Act.pure, Act.throw, Act.tryCatch]

/-- Witness of `full_sequence_in_order`: an empty `devDependencies`, the operator
picks yarn. -/
theorem full_sequence_in_order_witness :
    ((run [] (agreeableWorld "yarn") Globals.initial).trace.filter Event.isListPrompt).length = 1
      ∧ ((run [] (agreeableWorld "yarn") Globals.initial).trace.filter Event.isConfirm).length
          = 4 :=
  (full_sequence_in_order [] (agreeableWorld "yarn") Globals.initial "yarn" (by decide)
    (fun _ => rfl) rfl rfl (fun _ => rfl) ⟨fun _ _ => rfl, fun _ => rfl, fun _ _ => rfl⟩).2

/-! ## Failures inside a step -/

/-- C3, the script at the failing input: nothing declared, the operator picks
npm and confirms everything, and `npm install husky -D` fails.  The error leaves
`installAndConfigHusky` and is caught by the handler of `run`: after the message
nothing follows, neither `installAndConfigLintStaged` nor
`installAndConfigCommitLint` is executed; the exit status is zero. -/
theorem husky_failure_ends_run :
    (failingCommandWorld "npm install husky -D").commandOutcome "npm install husky -D"
        = some ⟨"Command failed: npm install husky -D"⟩
      ∧ (run [] (failingCommandWorld "npm install husky -D") Globals.initial).trace
        = [.access "./package.json",
           .promptList "packageManager" "Which package manager do you want to use?"
             ["yarn", "npm", "pnpm"],
           Tool.eslint.question,
           .spawn "npm" ["init", "@eslint/config"],
           .log "npm init @eslint/config completed successfully!",
           .log "eslint has been installed and configured in this project.",
           Tool.husky.question,
           .execPromise "npm install husky -D",
           .error "Command failed: npm install husky -D" none]
      ∧ Tool.lintStaged.question
          ∉ (run [] (failingCommandWorld "npm install husky -D") Globals.initial).trace
      ∧ Tool.commitLint.question
          ∉ (run [] (failingCommandWorld "npm install husky -D") Globals.initial).trace
      ∧ exitStatus [] (failingCommandWorld "npm install husky -D") = 0 := by
  decide

/-- C8, the script at the failing input: nothing declared, the operator picks
npm and confirms everything, and the install command of the commitlint step
fails.  The step starts the command with `exec` and never sees its outcome: no
`console.error` call is made in the whole run, and the step goes on to print
that commitlint is installed and configured. -/
theorem commitlint_install_failure_is_silent :
    (failingCommandWorld "npm install @commitlint/cli @commitlint/config-conventional -D").commandOutcome
        "npm install @commitlint/cli @commitlint/config-conventional -D"
        = some ⟨"Command failed: npm install @commitlint/cli @commitlint/config-conventional -D"⟩
      ∧ Event.exec "npm install @commitlint/cli @commitlint/config-conventional -D"
          ∈ (run [] (failingCommandWorld
              "npm install @commitlint/cli @commitlint/config-conventional -D")
              Globals.initial).trace
      ∧ (run [] (failingCommandWorld
              "npm install @commitlint/cli @commitlint/config-conventional -D")
              Globals.initial).trace.filter Event.isErrorReport = []
      ∧ Event.log "commitlint is now installed and configured."
          ∈ (run [] (failingCommandWorld
              "npm install @commitlint/cli @commitlint/config-conventional -D")
              Globals.initial).trace := by
  decide

/-- C10: in a run that reaches the staged-file linter step with `lint-staged`
undeclared and the operator confirming, if the install command, the write of
`.lintstagedrc.json` or the hook registration fails, then
`installAndConfigLintStaged` fulfils and its last act is the report of the
failure, and `run` goes on with `installAndConfigCommitLint` and fulfils; if the
install command is the one that fails, the step writes no file and starts no
other command. -/
theorem lint_staged_failure_is_contained (deps : DevDependencies) (w : World) (g0 : Globals)
    (hreach : (runUpToHusky deps w g0).value = .ok ())
    (hdecl : getProp deps "lint-staged" = none)
    (hyes : w.promptConfirm "installLintStaged" = .ok true)
    (hfail :
      w.commandOutcome
          (interpolate (runUpToHusky deps w g0).globals.packageInstallPrefix ++ " -D lint-staged")
          ≠ none
        ∨ w.writeOutcome ".lintstagedrc.json" (JSON.stringify DEFAULT_LINT_STAGED_CONFIG 2) ≠ none
        ∨ w.commandOutcome "npx husky add .husky/lint-staged \"npx lint-staged\"" ≠ none) :
    (installAndConfigLintStaged deps w (runUpToHusky deps w g0).globals).value = .ok ()
      ∧ (∃ e, (installAndConfigLintStaged deps w (runUpToHusky deps w g0).globals).trace.getLast?
          = some (.error "Failed to install and configure lint-staged" (some e)))
      ∧ (run deps w g0).trace
          = (runUpToHusky deps w g0).trace
            ++ (installAndConfigLintStaged deps w (runUpToHusky deps w g0).globals).trace
            ++ (installAndConfigCommitLint deps w (runUpToHusky deps w g0).globals).trace
      ∧ (run deps w g0).value = .ok ()
      ∧ (w.commandOutcome
          (interpolate (runUpToHusky deps w g0).globals.packageInstallPrefix ++ " -D lint-staged")
          ≠ none →
          (installAndConfigLintStaged deps w (runUpToHusky deps w g0).globals).trace.filter
              Event.isWrite = []
            ∧ (installAndConfigLintStaged deps w (runUpToHusky deps w g0).globals).trace.filter
              Event.isCommand
              = [.execPromise
                  (interpolate (runUpToHusky deps w g0).globals.packageInstallPrefix
                    ++ " -D lint-staged")]) := by
  have key : (installAndConfigLintStaged deps w (runUpToHusky deps w g0).globals).value = .ok ()
      ∧ (∃ e, (installAndConfigLintStaged deps w (runUpToHusky deps w g0).globals).trace.getLast?
          = some (.error "Failed to install and configure lint-staged" (some e)))
      ∧ (w.commandOutcome
          (interpolate (runUpToHusky deps w g0).globals.packageInstallPrefix ++ " -D lint-staged")
          ≠ none →
          (installAndConfigLintStaged deps w (runUpToHusky deps w g0).globals).trace.filter
              Event.isWrite = []
            ∧ (installAndConfigLintStaged deps w (runUpToHusky deps w g0).globals).trace.filter
              Event.isCommand
              = [.execPromise
                  (interpolate (runUpToHusky deps w g0).globals.packageInstallPrefix
                    ++ " -D lint-staged")]) := by
    revert hfail
    generalize (runUpToHusky deps w g0).globals = g
    cases hi : w.commandOutcome (interpolate g.packageInstallPrefix ++ " -D lint-staged") <;>
    cases hw : w.writeOutcome ".lintstagedrc.json"
      (JSON.stringify DEFAULT_LINT_STAGED_CONFIG 2) <;>
    cases hh : w.commandOutcome "npx husky add .husky/lint-staged \"npx lint-staged\"" <;>
    simp [installAndConfigLintStaged, hdecl, hyes, hi, hw, hh, toBoolean, promptConfirm,
      execPromise, writeFileSync, consoleLog, consoleError, getPackageInstallPrefix, settle,
      emit, Event.isWrite, Event.isCommand, bind, pure, throw, throwThe, MonadExcept.throw,
      tryCatch, tryCatchThe, MonadExcept.tryCatch, Act.bind, Act.pure, Act.throw,
      Act.tryCatch]
  exact ⟨key.1, key.2.1, (run_of_reach deps w g0 hreach key.1).2,
    (run_of_reach deps w g0 hreach key.1).1, key.2.2⟩

/-- Witness of `lint_staged_failure_is_contained`: nothing declared, the operator
picks npm and confirms everything, `npm install -D lint-staged` fails. -/
theorem lint_staged_failure_is_contained_witness :
    (run [] (failingCommandWorld "npm install -D lint-staged") Globals.initial).trace
      = (runUpToHusky [] (failingCommandWorld "npm install -D lint-staged") Globals.initial).trace
        ++ (installAndConfigLintStaged [] (failingCommandWorld "npm install -D lint-staged")
            (runUpToHusky [] (failingCommandWorld "npm install -D lint-staged")
              Globals.initial).globals).trace
        ++ (installAndConfigCommitLint [] (failingCommandWorld "npm install -D lint-staged")
            (runUpToHusky [] (failingCommandWorld "npm install -D lint-staged")
              Globals.initial).globals).trace :=
  (lint_staged_failure_is_contained [] (failingCommandWorld "npm install -D lint-staged")
    Globals.initial rfl rfl rfl (Or.inl (by decide))).2.2.1

/-! ## The configuration files -/

/-- C9, as stated, fails: on Windows, where `exec` hands the command to
`cmd.exe`, the confirmed commit-message linter step leaves in
`.commitlintrc.json` the text with its single quotes and the blank before the
`>`, which is not a JSON text. -/
theorem commitlint_configuration_on_cmd_is_not_json :
    toBoolean (getProp [] "@commitlint/cli") = false
      ∧ windowsWorld.promptConfirm "installCommitLint" = .ok true
      ∧ windowsWorld.commandOutcome
          "echo '\x7b \"extends\": [\"@commitlint/config-conventional\"] \x7d' > .commitlintrc.json"
          = none
      ∧ contentAfter windowsWorld ".commitlintrc.json" none
          (installAndConfigCommitLint [] windowsWorld ⟨some "npm", some "npm install"⟩).trace
          = some "'\x7b \"extends\": [\"@commitlint/config-conventional\"] \x7d' \r\n"
      ∧ JSON.parse "'\x7b \"extends\": [\"@commitlint/config-conventional\"] \x7d' \r\n" = none := by
  refine ⟨by decide, rfl, by decide, by decide, rfl⟩

/-- C9, amended: when the staged-file linter step is confirmed and its install
command succeeds, the one file the step writes is `.lintstagedrc.json`, and the
content is `JSON.stringify(DEFAULT_LINT_STAGED_CONFIG, null, 2)`: the one glob
pattern mapped to the list `prettier --write`, `eslint --fix`, `git add`, in this
order.  When the commit-message linter step is confirmed, the shell is a POSIX
shell and the echo command the step starts succeeds, the commands of the step
are exactly the install, the echo and the hook registration, the step writes no
file itself, and the content `.commitlintrc.json` is left with is the text
`{ "extends": ["@commitlint/config-conventional"] }` and a line feed: the JSON
object whose only field is `extends`, with the one-element list
`@commitlint/config-conventional`. -/
theorem written_configurations (deps : DevDependencies) (w : World) (g : Globals) :
    (toBoolean (getProp deps "lint-staged") = false →
      w.promptConfirm "installLintStaged" = .ok true →
      w.commandOutcome (interpolate g.packageInstallPrefix ++ " -D lint-staged") = none →
        (installAndConfigLintStaged deps w g).trace.filter Event.isWrite
            = [.writeFileSync ".lintstagedrc.json" (JSON.stringify DEFAULT_LINT_STAGED_CONFIG 2)]
          ∧ JSON.stringify DEFAULT_LINT_STAGED_CONFIG 2
            = "\x7b\n  \"*.\x7bjs,jsx,ts,tsx,json,md,mdx,html,css,scss,sass,less\x7d\": [\n    \"prettier --write\",\n    \"eslint --fix\",\n    \"git add\"\n  ]\n\x7d"
          ∧ DEFAULT_LINT_STAGED_CONFIG
            = .obj [("*.\x7bjs,jsx,ts,tsx,json,md,mdx,html,css,scss,sass,less\x7d",
                .arr [.str "prettier --write", .str "eslint --fix", .str "git add"])])
      ∧ (toBoolean (getProp deps "@commitlint/cli") = false →
        w.promptConfirm "installCommitLint" = .ok true →
        w.shell = .posix →
        w.commandOutcome
          "echo '\x7b \"extends\": [\"@commitlint/config-conventional\"] \x7d' > .commitlintrc.json"
          = none →
          (installAndConfigCommitLint deps w g).trace.filter Event.isCommand
              = [.exec (interpolate g.packageInstallPrefix
                    ++ " @commitlint/cli @commitlint/config-conventional -D"),
                 .exec "echo '\x7b \"extends\": [\"@commitlint/config-conventional\"] \x7d' > .commitlintrc.json",
                 .execPromise "npx husky add .husky/commit-msg \"npx --no -- commitlint --edit $\x7b1\x7d\""]
            ∧ (installAndConfigCommitLint deps w g).trace.filter Event.isWrite = []
            ∧ (∀ before, contentAfter w ".commitlintrc.json" before
                (installAndConfigCommitLint deps w g).trace
                = some "\x7b \"extends\": [\"@commitlint/config-conventional\"] \x7d\n")
            ∧ JSON.parse "\x7b \"extends\": [\"@commitlint/config-conventional\"] \x7d\n"
              = some (.obj [("extends", .arr [.str "@commitlint/config-conventional"])])) := by
  constructor
  · intro hb hyes hi
    refine ⟨?_, by decide, rfl⟩
    cases hw : w.writeOutcome ".lintstagedrc.json"
      (JSON.stringify DEFAULT_LINT_STAGED_CONFIG 2) <;>
    cases hh : w.commandOutcome "npx husky add .husky/lint-staged \"npx lint-staged\"" <;>
    simp [installAndConfigLintStaged, hb, hyes, hi, hw, hh, promptConfirm, execPromise,
      writeFileSync, consoleLog, consoleError, getPackageInstallPrefix, settle, emit,
      Event.isWrite, bind, pure, throw, throwThe, MonadExcept.throw, tryCatch, tryCatchThe,
      MonadExcept.tryCatch, Act.bind, Act.pure, Act.throw, Act.tryCatch]
  · intro hb hyes hsh hecho
    have e1 : shellEchoRedirect .posix
        "echo '\x7b \"extends\": [\"@commitlint/config-conventional\"] \x7d' > .commitlintrc.json"
        = some (".commitlintrc.json",
            "\x7b \"extends\": [\"@commitlint/config-conventional\"] \x7d\n") := by decide
    have e2 : shellEchoRedirect .posix
        "npx husky add .husky/commit-msg \"npx --no -- commitlint --edit $\x7b1\x7d\""
        = none := by decide
    refine ⟨?_, ?_, ?_, rfl⟩ <;>
    cases hh : w.commandOutcome
      "npx husky add .husky/commit-msg \"npx --no -- commitlint --edit $\x7b1\x7d\"" <;>
    simp [installAndConfigCommitLint, hb, hyes, hh, hsh, hecho, e1, e2, promptConfirm,
      execPromise, exec, consoleLog, consoleError, getPackageInstallPrefix, settle, emit,
      Event.isCommand, Event.isWrite, contentAfter, contentAfterEvent, contentAfterCommand,
      bind, pure, throw, throwThe, MonadExcept.throw, tryCatch, tryCatchThe,
      MonadExcept.tryCatch, Act.bind, Act.pure, Act.throw, Act.tryCatch]

/-- Witness of `written_configurations`: nothing declared, the operator picks
yarn and confirms, everything succeeds, the shell is a POSIX shell. -/
theorem written_configurations_witness :
    (installAndConfigLintStaged [] (agreeableWorld "yarn") ⟨some "yarn", some "yarn add"⟩).trace.filter
        Event.isWrite
        = [.writeFileSync ".lintstagedrc.json" (JSON.stringify DEFAULT_LINT_STAGED_CONFIG 2)]
      ∧ contentAfter (agreeableWorld "yarn") ".commitlintrc.json" none
          (installAndConfigCommitLint [] (agreeableWorld "yarn")
            ⟨some "yarn", some "yarn add"⟩).trace
        = some "\x7b \"extends\": [\"@commitlint/config-conventional\"] \x7d\n" :=
  ⟨((written_configurations [] (agreeableWorld "yarn") ⟨some "yarn", some "yarn add"⟩).1
      rfl rfl rfl).1,
    ((written_configurations [] (agreeableWorld "yarn") ⟨some "yarn", some "yarn add"⟩).2
      rfl rfl rfl rfl).2.2.1 none⟩

end CodeBooster
